import Mathlib

/-!
Verification of the ad-set tool layer of the meta-ads-mcp repository.

The development shallowly embeds `src/meta_ads_mcp/core/adsets.py`:

* `JVal` models a decoded JSON value / the Python values that the tools place
  into their `params` dictionaries (strings, ints, booleans, `None`, lists,
  dicts with string keys, in insertion order).
* `dumps` models Python's `json.dumps` with its default separators
  (`", "` between items, `": "` after keys); `loads` models `json.loads`
  restricted to the fragment the tools produce (integer numbers).  Both are
  external-library behaviour, not repository code, and are modelled from the
  spec's description of the serialization step.
* Each tool (`get_adsets`, `get_adset_details`, `create_adset`,
  `update_adset`) is embedded as a function from its arguments and an
  environment (the behaviour of the external collaborators
  `make_api_request` and `get_ad_accounts`, which live outside the provided
  sources) to the JSON value it returns plus the trace of outbound calls it
  made.
-/

namespace MetaAdsMCP

/-- A decoded JSON value, which is also the model of the Python values the
tools put into `params`: `null`/`None`, booleans, integers, strings, lists
and string-keyed dicts in insertion order. -/
inductive JVal where
  | null
  | bool (b : Bool)
  | int (n : Int)
  | str (s : String)
  | arr (elts : List JVal)
  | obj (fields : List (String × JVal))

mutual

/-- Boolean structural equality on `JVal`. -/
def jeq : JVal → JVal → Bool
  | .null, .null => true
  | .bool a, .bool b => a = b
  | .int a, .int b => a = b
  | .str a, .str b => a = b
  | .arr a, .arr b => jeqItems a b
  | .obj a, .obj b => jeqFields a b
  | _, _ => false

/-- Pointwise `jeq` on lists of values. -/
def jeqItems : List JVal → List JVal → Bool
  | [], [] => true
  | a :: as, b :: bs => jeq a b && jeqItems as bs
  | _, _ => false

/-- Pointwise `jeq` on association lists. -/
def jeqFields : List (String × JVal) → List (String × JVal) → Bool
  | [], [] => true
  | (k, v) :: as, (k', v') :: bs => k = k' && jeq v v' && jeqFields as bs
  | _, _ => false

end

mutual

theorem jeq_iff : ∀ a b : JVal, jeq a b = true ↔ a = b
  | .null, .null => by simp [jeq]
  | .bool a, .bool b => by simp [jeq]
  | .int a, .int b => by simp [jeq]
  | .str a, .str b => by simp [jeq]
  | .arr a, .arr b => by
      simp only [jeq, jeqItems_iff a b, JVal.arr.injEq]
  | .obj a, .obj b => by
      simp only [jeq, jeqFields_iff a b, JVal.obj.injEq]
  | .null, .bool _ | .null, .int _ | .null, .str _ | .null, .arr _ | .null, .obj _
  | .bool _, .null | .bool _, .int _ | .bool _, .str _ | .bool _, .arr _ | .bool _, .obj _
  | .int _, .null | .int _, .bool _ | .int _, .str _ | .int _, .arr _ | .int _, .obj _
  | .str _, .null | .str _, .bool _ | .str _, .int _ | .str _, .arr _ | .str _, .obj _
  | .arr _, .null | .arr _, .bool _ | .arr _, .int _ | .arr _, .str _ | .arr _, .obj _
  | .obj _, .null | .obj _, .bool _ | .obj _, .int _ | .obj _, .str _ | .obj _, .arr _ => by
      simp [jeq]

theorem jeqItems_iff : ∀ a b : List JVal, jeqItems a b = true ↔ a = b
  | [], [] => by simp [jeqItems]
  | a :: as, b :: bs => by
      simp only [jeqItems, Bool.and_eq_true, jeq_iff a b, jeqItems_iff as bs, List.cons.injEq]
  | [], _ :: _ => by simp [jeqItems]
  | _ :: _, [] => by simp [jeqItems]

theorem jeqFields_iff : ∀ a b : List (String × JVal), jeqFields a b = true ↔ a = b
  | [], [] => by simp [jeqFields]
  | (k, v) :: as, (k', v') :: bs => by
      simp only [jeqFields, Bool.and_eq_true, decide_eq_true_eq, jeq_iff v v',
        jeqFields_iff as bs, List.cons.injEq, Prod.mk.injEq]
      try tauto
  | [], _ :: _ => by simp [jeqFields]
  | _ :: _, [] => by simp [jeqFields]

end

instance : DecidableEq JVal := fun a b =>
  if h : jeq a b = true then .isTrue ((jeq_iff a b).mp h)
  else .isFalse (fun he => h ((jeq_iff a b).mpr he))

/-- Decimal digit character for `d < 10`. -/
def digitCh (d : Nat) : Char := Char.ofNat (48 + d % 10)

/-- Decimal digits of `n`, most significant first, prepended to `acc`.
Structural on the fuel so that it reduces inside the kernel. -/
def digitsGo : Nat → Nat → List Char → List Char
  | 0, _, acc => acc
  | fuel + 1, n, acc =>
      if n < 10 then digitCh n :: acc
      else digitsGo fuel (n / 10) (digitCh (n % 10) :: acc)

/-- Decimal digit characters of a natural number. -/
def natChars (n : Nat) : List Char := digitsGo (n + 1) n []

/-- Characters of an integer in Python `str` form: optional minus sign and
decimal digits. -/
def intChars (i : Int) : List Char :=
  (if i < 0 then ['-'] else []) ++ natChars i.natAbs

/-- Hexadecimal digit character (lower case) for `d < 16`. -/
def hexCh (d : Nat) : Char :=
  if d < 10 then Char.ofNat (48 + d) else Char.ofNat (87 + d)

/-- JSON escape of one character, as emitted by `json.dumps`: quote and
backslash get a backslash escape, the common control characters use their
short forms, the remaining control characters use `\u00XX`.  (CPython
additionally escapes non-ASCII characters when `ensure_ascii` is left on;
the model emits them verbatim, which decodes identically.) -/
def escCh (c : Char) : List Char :=
  if c = '"' then ['\\', '"']
  else if c = '\\' then ['\\', '\\']
  else if c = '\n' then ['\\', 'n']
  else if c = '\t' then ['\\', 't']
  else if c = '\r' then ['\\', 'r']
  else if c.toNat = 8 then ['\\', 'b']
  else if c.toNat = 12 then ['\\', 'f']
  else if c.toNat < 32 then ['\\', 'u', '0', '0', hexCh (c.toNat / 16), hexCh (c.toNat % 16)]
  else [c]

/-- JSON escape of a character list. -/
def escList : List Char → List Char
  | [] => []
  | c :: cs => escCh c ++ escList cs

/-- Characters of a JSON string literal: quote, escaped body, quote. -/
def strChars (s : String) : List Char := '"' :: (escList s.toList ++ ['"'])

mutual

/-- Characters of `json.dumps(v)` with CPython's default separators:
`", "` between array/object items and `": "` after each key. -/
def dumpChars : JVal → List Char
  | .null => "null".toList
  | .bool true => "true".toList
  | .bool false => "false".toList
  | .int n => intChars n
  | .str s => strChars s
  | .arr l => '[' :: (dumpItems l ++ [']'])
  | .obj kvs => '{' :: (dumpFields kvs ++ ['}'])

/-- Comma-and-space separated renderings of array elements. -/
def dumpItems : List JVal → List Char
  | [] => []
  | [v] => dumpChars v
  | v :: w :: rest => dumpChars v ++ ',' :: ' ' :: dumpItems (w :: rest)

/-- Comma-and-space separated renderings of object members. -/
def dumpFields : List (String × JVal) → List Char
  | [] => []
  | [(k, v)] => strChars k ++ ':' :: ' ' :: dumpChars v
  | (k, v) :: m :: rest =>
      strChars k ++ ':' :: ' ' :: dumpChars v ++ ',' :: ' ' :: dumpFields (m :: rest)

end

/-- Model of Python's `json.dumps` with default arguments, as used by the
tools for nested `params` values and for the argument of the ad-accounts
lookup. -/
def dumps (v : JVal) : String := String.mk (dumpChars v)

/-! ### Python-semantics helpers used by the tool bodies -/

/-- Python truthiness of an optional string argument declared `str = None`:
`not x` is true exactly when the argument is `None` or the empty string. -/
def strOptFalsy : Option String → Bool
  | none => true
  | some s => s = ""

/-- First-field association-list lookup, the model of indexing a decoded
JSON dict (whose keys are distinct). -/
def lookupField : List (String × JVal) → String → Option JVal
  | [], _ => none
  | (k, v) :: rest, key => if k = key then some v else lookupField rest key

/-- Python dict assignment `d[k] = v`: replace the value in place if the key
is present, otherwise append the new binding. -/
def setField : List (String × JVal) → String → JVal → List (String × JVal)
  | [], k, v => [(k, v)]
  | (k', v') :: rest, k, v =>
      if k' = k then (k, v) :: rest else (k', v') :: setField rest k v

/-- Python truthiness of a decoded JSON value: `None`, `False`, `0`, the
empty string, the empty list and the empty dict are falsy. -/
def isTruthy : JVal → Bool
  | .null => false
  | .bool b => b
  | .int n => n ≠ 0
  | .str s => s ≠ ""
  | .arr l => l ≠ []
  | .obj kvs => kvs ≠ []

/-- Does `hay` start with `needle`? -/
def charsStartWith : List Char → List Char → Bool
  | [], _ => true
  | _ :: _, [] => false
  | a :: as, b :: bs => a = b && charsStartWith as bs

/-- Does `hay` contain `needle` as a contiguous run?  Models Python's
`in` on strings. -/
def charsHaveRun (needle : List Char) : List Char → Bool
  | [] => charsStartWith needle []
  | c :: rest => charsStartWith needle (c :: rest) || charsHaveRun needle rest

/-- Python `key in v` on a decoded JSON value: key lookup for dicts,
membership for lists, substring test for strings; anything else raises
`TypeError`. -/
def pyContainsKey (v : JVal) (key : String) : Except String Bool :=
  match v with
  | .obj kvs => .ok (lookupField kvs key).isSome
  | .arr l => .ok (l.any fun x => match x with | .str s => s = key | _ => false)
  | .str s => .ok (charsHaveRun key.toList s.toList)
  | _ => .error "TypeError: argument of type is not iterable"

/-- Python `str()` of a decoded-JSON value, as used by the f-strings and
`str(...)` coercions in the tool bodies.  Containers are rendered with the
JSON renderer; CPython uses `repr` with single quotes there, but no claim
in this development depends on that case. -/
def pyStr : JVal → String
  | .str s => s
  | .int n => String.mk (intChars n)
  | .bool true => "True"
  | .bool false => "False"
  | .null => "None"
  | .arr l => dumps (.arr l)
  | .obj kvs => dumps (.obj kvs)

/-! ### The tool environment: external collaborators

`make_api_request` and `get_ad_accounts` are imported by `adsets.py` from
modules that are not part of the provided sources, so their behaviour is a
parameter of the model: an `ApiEnv` fixes what the dispatcher returns (or
which exception it raises) and what the decoded ad-accounts lookup yields. -/

/-- One outbound call made by a tool body. -/
inductive Call where
  | getAdAccounts (user : String) (args : String) (token : Option String)
  | apiRequest (endpoint : String) (token : Option String)
      (params : List (String × JVal)) (method : String)
deriving DecidableEq

/-- Behaviour of the external collaborators for one tool invocation.
`accounts` is the decoded JSON object that `get_ad_accounts("me", ...)`
produces (modelled from the spec: the lookup of the user's ad accounts,
which lives outside the provided sources, returns a JSON object such as
`data: [...]`).  `api` gives `make_api_request`'s decoded result, or the
message of the exception it raises. -/
structure ApiEnv where
  accounts : List (String × JVal)
  api : String → List (String × JVal) → String → Except String JVal

/-- Result of one tool invocation: the value the tool passes to its final
`json.dumps(..., indent=2)`, or an uncaught Python exception. -/
inductive PyOutcome where
  | ret (v : JVal)
  | exn (msg : String)
deriving DecidableEq

/-! ### get_adsets -/

/-- The `fields` selector requested by `get_adsets` (identical on both
endpoint branches of the source). -/
def adsetsFieldsSelector : String :=
  "id,name,campaign_id,status,daily_budget,lifetime_budget,targeting,bid_amount,bid_strategy,optimization_goal,billing_event,start_time,end_time,created_time,updated_time,frequency_control_specs\x7bevent,interval_days,max_frequency\x7d"

/-- Argument string the source passes to the ad-accounts lookup:
`json.dumps({"limit": 1})`. -/
def limitOneArg : String := dumps (.obj [("limit", .int 1)])

/-- Error envelope returned when no account id is given and the user has no
ad accounts. -/
def noAccountsEnvelope : JVal :=
  .obj [("error", .str "No account ID specified and no accounts found for user")]

/-- Extraction `accounts_data["data"][0]["id"]` from the source, with the
Python exceptions raised by a malformed accounts payload. -/
def firstAccountId (d : JVal) : Except String JVal :=
  match d with
  | .arr (h :: _) =>
      match h with
      | .obj kvs =>
          match lookupField kvs "id" with
          | some v => .ok v
          | none => .error "KeyError: id"
      | _ => .error "TypeError: indices must be strings"
  | _ => .error "TypeError: value is not subscriptable"

/-- Account-id resolution shared by the head of `get_adsets`: when the
argument is falsy the tool queries the user's ad accounts with limit 1 and
takes the id of the first account, returning the error envelope when the
condition `"data" in accounts_data and accounts_data["data"]` fails. -/
def resolveAccountId (env : ApiEnv) (access_token : Option String)
    (account_id : Option String) :
    Except (PyOutcome × List Call) (String × List Call) :=
  if strOptFalsy account_id then
    let call := Call.getAdAccounts "me" limitOneArg access_token
    match lookupField env.accounts "data" with
    | some d =>
        if isTruthy d then
          match firstAccountId d with
          | .ok v => .ok (pyStr v, [call])
          | .error m => .error (.exn m, [call])
        else .error (.ret noAccountsEnvelope, [call])
    | none => .error (.ret noAccountsEnvelope, [call])
  else .ok (account_id.getD "", [])

/-- Embedding of `get_adsets` from `src/meta_ads_mcp/core/adsets.py`. -/
def get_adsets (env : ApiEnv) (access_token : Option String)
    (account_id : Option String) (limit : Int) (campaign_id : String) :
    PyOutcome × List Call :=
  match resolveAccountId env access_token account_id with
  | .error out => out
  | .ok (acct, tr) =>
      let params : List (String × JVal) :=
        [("fields", .str adsetsFieldsSelector), ("limit", .int limit)]
      let endpoint := if campaign_id = "" then acct ++ "/adsets" else campaign_id ++ "/adsets"
      let tr' := tr ++ [Call.apiRequest endpoint access_token params "GET"]
      match env.api endpoint params "GET" with
      | .ok data => (.ret data, tr')
      | .error m => (.exn m, tr')

/-! ### get_adset_details -/

/-- The `fields` selector requested by `get_adset_details`. -/
def detailsFieldsSelector : String :=
  "id,name,campaign_id,status,frequency_control_specs\x7bevent,interval_days,max_frequency\x7d,daily_budget,lifetime_budget,targeting,bid_amount,bid_strategy,optimization_goal,billing_event,start_time,end_time,created_time,updated_time,attribution_spec,destination_type,promoted_object,pacing_type,budget_remaining"

/-- The `_meta` note `get_adset_details` adds when the payload has no
`frequency_control_specs` field. -/
def fcsAbsentNote : JVal :=
  .obj [("note", .str "No frequency_control_specs field was returned by the API. This means either no frequency caps are set or the API did not include this field in the response.")]

/-- Embedding of `get_adset_details` from `src/meta_ads_mcp/core/adsets.py`. -/
def get_adset_details (env : ApiEnv) (access_token : Option String)
    (adset_id : Option String) : PyOutcome × List Call :=
  if strOptFalsy adset_id then
    (.ret (.obj [("error", .str "No ad set ID provided")]), [])
  else
    let endpoint := adset_id.getD ""
    let params : List (String × JVal) := [("fields", .str detailsFieldsSelector)]
    let tr := [Call.apiRequest endpoint access_token params "GET"]
    match env.api endpoint params "GET" with
    | .error m => (.exn m, tr)
    | .ok data =>
        match pyContainsKey data "frequency_control_specs" with
        | .error m => (.exn m, tr)
        | .ok true => (.ret data, tr)
        | .ok false =>
            match data with
            | .obj kvs => (.ret (.obj (setField kvs "_meta" fcsAbsentNote)), tr)
            | _ => (.exn "TypeError: value does not support item assignment", tr)

/-! ### create_adset -/

/-- Arguments of `create_adset`; optional `str` parameters are `Option
String`, the untyped budget and bid amounts are arbitrary Python values,
and `targeting` is a dict. -/
structure CreateAdsetArgs where
  account_id : Option String
  campaign_id : Option String
  name : Option String
  status : String
  daily_budget : Option JVal
  lifetime_budget : Option JVal
  targeting : Option (List (String × JVal))
  optimization_goal : Option String
  billing_event : Option String
  bid_amount : Option JVal
  bid_strategy : Option String
  start_time : Option String
  end_time : Option String

/-- Default targeting substituted by `create_adset` when `targeting` is
falsy (`None` or the empty dict). -/
def defaultTargeting : List (String × JVal) :=
  [("age_min", .int 18),
   ("age_max", .int 65),
   ("geo_locations", .obj [("countries", .arr [.str "US"])]),
   ("targeting_automation", .obj [("advantage_audience", .int 1)])]

/-- The targeting dict actually sent: the argument unless it is falsy. -/
def resolvedTargeting (a : CreateAdsetArgs) : List (String × JVal) :=
  match a.targeting with
  | none => defaultTargeting
  | some t => if t = [] then defaultTargeting else t

/-- The `params` dict `create_adset` builds, in source insertion order.
The `targeting` value is `json.dumps` of the targeting dict; budgets and
the bid amount are coerced with `str(...)`; `bid_strategy`, `start_time`
and `end_time` are added only when truthy. -/
def create_adset_params (a : CreateAdsetArgs) : List (String × JVal) :=
  [("name", .str (a.name.getD "")),
   ("campaign_id", .str (a.campaign_id.getD "")),
   ("status", .str a.status),
   ("optimization_goal", .str (a.optimization_goal.getD "")),
   ("billing_event", .str (a.billing_event.getD "")),
   ("targeting", .str (dumps (.obj (resolvedTargeting a))))]
  ++ (match a.daily_budget with
      | some v => [("daily_budget", .str (pyStr v))]
      | none => [])
  ++ (match a.lifetime_budget with
      | some v => [("lifetime_budget", .str (pyStr v))]
      | none => [])
  ++ (match a.bid_amount with
      | some v => [("bid_amount", .str (pyStr v))]
      | none => [])
  ++ (if strOptFalsy a.bid_strategy then []
      else [("bid_strategy", .str (a.bid_strategy.getD ""))])
  ++ (if strOptFalsy a.start_time then []
      else [("start_time", .str (a.start_time.getD ""))])
  ++ (if strOptFalsy a.end_time then []
      else [("end_time", .str (a.end_time.getD ""))])

/-- Embedding of `create_adset` from `src/meta_ads_mcp/core/adsets.py`:
required-argument checks in source order, then one POST to
`{account_id}/adsets` inside `try`, whose exception is converted to the
error envelope carrying `params_sent`. -/
def create_adset (env : ApiEnv) (access_token : Option String)
    (a : CreateAdsetArgs) : PyOutcome × List Call :=
  if strOptFalsy a.account_id then
    (.ret (.obj [("error", .str "No account ID provided")]), [])
  else if strOptFalsy a.campaign_id then
    (.ret (.obj [("error", .str "No campaign ID provided")]), [])
  else if strOptFalsy a.name then
    (.ret (.obj [("error", .str "No ad set name provided")]), [])
  else if strOptFalsy a.optimization_goal then
    (.ret (.obj [("error", .str "No optimization goal provided")]), [])
  else if strOptFalsy a.billing_event then
    (.ret (.obj [("error", .str "No billing event provided")]), [])
  else
    let endpoint := a.account_id.getD "" ++ "/adsets"
    let params := create_adset_params a
    let tr := [Call.apiRequest endpoint access_token params "POST"]
    match env.api endpoint params "POST" with
    | .ok data => (.ret data, tr)
    | .error m =>
        (.ret (.obj [("error", .str "Failed to create ad set"),
                     ("details", .str m),
                     ("params_sent", .obj params)]), tr)

/-! ### update_adset -/

/-- Arguments of `update_adset` besides the required `adset_id`.
`targeting` may be a dict or (per the source's `isinstance` test) any other
already-encoded value. -/
structure UpdateAdsetArgs where
  frequency_control_specs : Option (List JVal)
  bid_strategy : Option String
  bid_amount : Option Int
  status : Option String
  targeting : Option JVal
  optimization_goal : Option String

/-- The `params` dict `update_adset` builds, in source insertion order.
`frequency_control_specs` is stored as the native list; `bid_amount` is
coerced with `str(...)`; `targeting` is `json.dumps`-encoded only when it
is a dict. -/
def update_adset_params (a : UpdateAdsetArgs) : List (String × JVal) :=
  (match a.frequency_control_specs with
   | some l => [("frequency_control_specs", .arr l)]
   | none => [])
  ++ (match a.bid_strategy with
      | some s => [("bid_strategy", .str s)]
      | none => [])
  ++ (match a.bid_amount with
      | some n => [("bid_amount", .str (String.mk (intChars n)))]
      | none => [])
  ++ (match a.status with
      | some s => [("status", .str s)]
      | none => [])
  ++ (match a.optimization_goal with
      | some s => [("optimization_goal", .str s)]
      | none => [])
  ++ (match a.targeting with
      | some (.obj kvs) => [("targeting", .str (dumps (.obj kvs)))]
      | some v => [("targeting", v)]
      | none => [])

/-- Embedding of `update_adset` from `src/meta_ads_mcp/core/adsets.py`:
empty-id check, incremental `params` build, empty-params check, then one
POST to `{adset_id}` inside `try`, whose exception is converted to the
error envelope carrying `params_sent`. -/
def update_adset (env : ApiEnv) (access_token : Option String)
    (adset_id : String) (a : UpdateAdsetArgs) : PyOutcome × List Call :=
  if adset_id = "" then
    (.ret (.obj [("error", .str "No ad set ID provided")]), [])
  else
    let params := update_adset_params a
    if params.isEmpty then
      (.ret (.obj [("error", .str "No update parameters provided")]), [])
    else
      let tr := [Call.apiRequest adset_id access_token params "POST"]
      match env.api adset_id params "POST" with
      | .ok data => (.ret data, tr)
      | .error m =>
          (.ret (.obj [("error", .str ("Failed to update ad set " ++ adset_id)),
                       ("details", .str m),
                       ("params_sent", .obj params)]), tr)

/-! ### Bypass-mode token manager

The `pipeboard_auth` module exercised by `src/test_bypass.py` is not part
of the provided sources; the manager below is modelled from the spec
(section 4.1): in bypass mode `get_access_token` returns the fixed sentinel
regardless of `force_refresh`, otherwise a held token is reused unless a
refresh is forced, in which case the acquisition oracle is consulted. -/

/-- The fixed sentinel token of bypass mode. -/
def bypassSentinel : String := "MOCK_ACCESS_TOKEN_BYPASS_12345"

/-- State of the token lifecycle manager: whether bypass mode is active and
which token, if any, is currently held. -/
structure AuthState where
  bypass : Bool
  held : Option String

/-- Modelled from the spec: `get_access_token(force_refresh)` of the token
lifecycle manager (the `pipeboard_auth` module is missing from the
sources).  In bypass mode it always returns the sentinel; in live mode it
returns the held token unless absent or a refresh is forced, in which case
it returns what the acquisition flow (`acquire`) yields. -/
def get_access_token (acquire : Option String) (st : AuthState)
    (force_refresh : Bool) : Option String :=
  if st.bypass then some bypassSentinel
  else
    match st.held with
    | some t => if force_refresh then acquire else some t
    | none => acquire

/-! ### Helper lemmas about account resolution -/

/-- Every outcome of `resolveAccountId`: either the argument was truthy and
nothing was looked up, or exactly one ad-accounts lookup happened. -/
theorem resolveAccountId_cases (env : ApiEnv) (tok : Option String)
    (acc : Option String) :
    (∃ s, resolveAccountId env tok acc = .ok (s, []))
    ∨ (∃ s, resolveAccountId env tok acc
          = .ok (s, [Call.getAdAccounts "me" limitOneArg tok]))
    ∨ (∃ out, resolveAccountId env tok acc
          = .error (out, [Call.getAdAccounts "me" limitOneArg tok])) := by
  unfold resolveAccountId
  by_cases hf : strOptFalsy acc = true
  · simp only [hf, if_true]
    cases hd : lookupField env.accounts "data" with
    | none => exact .inr (.inr ⟨_, rfl⟩)
    | some d =>
        by_cases ht : isTruthy d = true
        · simp only [ht, if_true]
          cases hi : firstAccountId d with
          | ok v => exact .inr (.inl ⟨_, rfl⟩)
          | error m => exact .inr (.inr ⟨_, rfl⟩)
        · simp only [Bool.not_eq_true] at ht
          simp only [ht, Bool.false_eq_true, if_false]
          exact .inr (.inr ⟨_, rfl⟩)
  · simp only [Bool.not_eq_true] at hf
    simp only [hf, Bool.false_eq_true, if_false]
    exact .inl ⟨_, rfl⟩

/-- When the account argument is falsy, `resolveAccountId` records exactly
the ad-accounts lookup in its trace, whichever way it goes. -/
theorem resolveAccountId_falsy_trace (env : ApiEnv) (tok : Option String)
    (acc : Option String) (h : strOptFalsy acc = true) :
    (∃ s, resolveAccountId env tok acc
        = .ok (s, [Call.getAdAccounts "me" limitOneArg tok]))
    ∨ (∃ out, resolveAccountId env tok acc
        = .error (out, [Call.getAdAccounts "me" limitOneArg tok])) := by
  unfold resolveAccountId
  simp only [h, if_true]
  cases hd : lookupField env.accounts "data" with
  | none => exact .inr ⟨_, rfl⟩
  | some d =>
      by_cases ht : isTruthy d = true
      · simp only [ht, if_true]
        cases hi : firstAccountId d with
        | ok v => exact .inl ⟨_, rfl⟩
        | error m => exact .inr ⟨_, rfl⟩
      · simp only [Bool.not_eq_true] at ht
        simp only [ht, Bool.false_eq_true, if_false]
        exact .inr ⟨_, rfl⟩

/-- When the looked-up accounts payload has an empty `data` list, the
condition in the source fails and `resolveAccountId` returns the
no-accounts error envelope. -/
theorem resolveAccountId_empty (env : ApiEnv) (tok : Option String)
    (acc : Option String) (h : strOptFalsy acc = true)
    (hd : lookupField env.accounts "data" = some (.arr [])) :
    resolveAccountId env tok acc
      = .error (.ret noAccountsEnvelope,
          [Call.getAdAccounts "me" limitOneArg tok]) := by
  unfold resolveAccountId
  simp [h, hd, isTruthy]

/-! ### Claim C1 -/

/-- C1: a `create_adset` call that supplies `account_id`, `campaign_id` and
`name` but no (or an empty) `optimization_goal` returns the validation
error envelope with an empty outbound-call trace — `make_api_request` is
never invoked — and that envelope has no `params_sent` key. -/
theorem C1_create_missing_goal_short_circuits
    (env : ApiEnv) (tok : Option String) (a : CreateAdsetArgs)
    (hacc : strOptFalsy a.account_id = false)
    (hcamp : strOptFalsy a.campaign_id = false)
    (hname : strOptFalsy a.name = false)
    (hgoal : strOptFalsy a.optimization_goal = true) :
    create_adset env tok a
      = (.ret (.obj [("error", .str "No optimization goal provided")]), [])
    ∧ lookupField [("error", .str "No optimization goal provided")] "params_sent"
        = none := by
  refine ⟨?_, by simp [lookupField]⟩
  simp [create_adset, hacc, hcamp, hname, hgoal]

/-- Witness environment whose accounts payload holds one account and whose
dispatcher succeeds with a fixed payload. -/
def envOk : ApiEnv :=
  ⟨[("data", .arr [.obj [("id", .str "act_1")]])],
   fun _ _ _ => .ok (.obj [("ok", .bool true)])⟩

/-- Witness arguments for a fully validated `create_adset` call. -/
def cargsOk : CreateAdsetArgs :=
  ⟨some "act_1", some "c1", some "Ad", "PAUSED", none, none, none,
   some "LINK_CLICKS", some "IMPRESSIONS", none, none, none, none⟩

/-- Witness arguments identical to `cargsOk` except that the optimization
goal is missing. -/
def cargsNoGoal : CreateAdsetArgs :=
  ⟨some "act_1", some "c1", some "Ad", "PAUSED", none, none, none,
   none, some "IMPRESSIONS", none, none, none, none⟩

theorem C1_witness :
    create_adset envOk none cargsNoGoal
      = (.ret (.obj [("error", .str "No optimization goal provided")]), [])
    ∧ lookupField [("error", .str "No optimization goal provided")] "params_sent"
        = none :=
  C1_create_missing_goal_short_circuits envOk none cargsNoGoal
    (by decide) (by decide) (by decide) (by decide)

/-! ### Claim C3 -/

/-- Characterization of every dispatcher call `get_adsets` makes when the
campaign filter is non-empty: campaign sub-resource path, exactly the
`fields` and `limit` params, method GET.  Shared by the C3 and C10
theorems. -/
theorem getAdsets_campaign_calls
    (env : ApiEnv) (tok : Option String) (account_id : Option String)
    (limit : Int) (campaign_id : String) (hc : campaign_id ≠ "") :
    ∀ e t p m,
      Call.apiRequest e t p m ∈ (get_adsets env tok account_id limit campaign_id).2 →
      e = campaign_id ++ "/adsets"
      ∧ p.map Prod.fst = ["fields", "limit"]
      ∧ p = [("fields", .str adsetsFieldsSelector), ("limit", .int limit)]
      ∧ m = "GET" := by
  intro e t p m hmem
  rcases resolveAccountId_cases env tok account_id with ⟨s, hr⟩ | ⟨s, hr⟩ | ⟨out, hr⟩
  · simp only [get_adsets, hr, if_neg hc] at hmem
    split at hmem <;>
    · simp only [List.nil_append, List.mem_singleton] at hmem
      injection hmem with he ht hp hm
      subst he ht hp hm
      exact ⟨rfl, rfl, rfl, rfl⟩
  · simp only [get_adsets, hr, if_neg hc] at hmem
    split at hmem <;>
    · simp only [List.cons_append, List.nil_append, List.mem_cons,
        List.mem_singleton, reduceCtorEq, false_or] at hmem
      rcases hmem with hmem | hmem
      · injection hmem with he ht hp hm
        subst he ht hp hm
        exact ⟨rfl, rfl, rfl, rfl⟩
      · simp at hmem
  · simp only [get_adsets, hr] at hmem
    simp at hmem

/-- C3: with a non-empty `campaign_id`, every dispatcher request `get_adsets`
makes targets the campaign sub-resource path `{campaign_id}/adsets`, with a
params mapping whose keys are exactly `fields` and `limit` — the campaign
filter never appears as a query parameter. -/
theorem C3_campaign_scoped_path
    (env : ApiEnv) (tok : Option String) (account_id : Option String)
    (limit : Int) (campaign_id : String) (hc : campaign_id ≠ "") :
    ∀ e t p m,
      Call.apiRequest e t p m ∈ (get_adsets env tok account_id limit campaign_id).2 →
      e = campaign_id ++ "/adsets"
      ∧ p.map Prod.fst = ["fields", "limit"]
      ∧ p = [("fields", .str adsetsFieldsSelector), ("limit", .int limit)]
      ∧ m = "GET" :=
  getAdsets_campaign_calls env tok account_id limit campaign_id hc

theorem C3_witness :
    "camp9" ≠ ""
    ∧ (∀ e t p m,
        Call.apiRequest e t p m ∈ (get_adsets envOk none (some "act_1") 10 "camp9").2 →
        e = "camp9" ++ "/adsets"
        ∧ p.map Prod.fst = ["fields", "limit"]
        ∧ p = [("fields", .str adsetsFieldsSelector), ("limit", .int 10)]
        ∧ m = "GET") :=
  ⟨by decide, C3_campaign_scoped_path envOk none (some "act_1") 10 "camp9" (by decide)⟩

/-! ### Claim C5 -/

/-- C5: with no (or an empty) `account_id`, `get_adsets` first queries the
user's ad accounts with limit 1; when the accounts payload carries an empty
`data` list it returns the no-accounts error envelope without ever calling
the adsets endpoint; and when the first account carries a string id that id
becomes the account endpoint path. -/
theorem C5_account_fallback
    (env : ApiEnv) (tok : Option String) (account_id : Option String)
    (limit : Int) (campaign_id : String)
    (h : strOptFalsy account_id = true) :
    (get_adsets env tok account_id limit campaign_id).2.head?
        = some (Call.getAdAccounts "me" limitOneArg tok)
    ∧ (lookupField env.accounts "data" = some (.arr []) →
        (get_adsets env tok account_id limit campaign_id).1 = .ret noAccountsEnvelope
        ∧ ∀ e t p m,
            Call.apiRequest e t p m ∉ (get_adsets env tok account_id limit campaign_id).2)
    ∧ (∀ kvs rest s,
        lookupField env.accounts "data" = some (.arr (.obj kvs :: rest)) →
        lookupField kvs "id" = some (.str s) → campaign_id = "" →
        Call.apiRequest (s ++ "/adsets") tok
            [("fields", .str adsetsFieldsSelector), ("limit", .int limit)] "GET"
          ∈ (get_adsets env tok account_id limit campaign_id).2) := by
  refine ⟨?_, ?_, ?_⟩
  · rcases resolveAccountId_falsy_trace env tok account_id h with ⟨s, hr⟩ | ⟨out, hr⟩
    · simp only [get_adsets, hr]
      split <;> simp
    · simp only [get_adsets, hr]
      simp
  · intro hd
    have hr := resolveAccountId_empty env tok account_id h hd
    simp [get_adsets, hr, noAccountsEnvelope]
  · intro kvs rest s hd hid hcamp
    have hr : resolveAccountId env tok account_id
        = .ok (s, [Call.getAdAccounts "me" limitOneArg tok]) := by
      unfold resolveAccountId
      simp [h, hd, isTruthy, firstAccountId, hid, pyStr]
    simp only [get_adsets, hr, hcamp, if_pos rfl]
    split <;> simp

theorem C5_witness :
    strOptFalsy (none : Option String) = true
    ∧ (get_adsets envOk none none 10 "").2.head?
        = some (Call.getAdAccounts "me" limitOneArg none) :=
  ⟨by decide, (C5_account_fallback envOk none none 10 "" (by decide)).1⟩

/-! ### Claim C9 -/

/-- C9: `update_adset` with a non-empty `adset_id` and every optional update
argument left `None` returns the no-update-parameters error envelope with an
empty call trace — no network call, so no remote state is touched. -/
theorem C9_update_no_params
    (env : ApiEnv) (tok : Option String) (adset_id : String) (h : adset_id ≠ "") :
    update_adset env tok adset_id ⟨none, none, none, none, none, none⟩
      = (.ret (.obj [("error", .str "No update parameters provided")]), []) := by
  simp [update_adset, h, update_adset_params]

theorem C9_witness :
    "120210000000" ≠ ""
    ∧ update_adset envOk none "120210000000" ⟨none, none, none, none, none, none⟩
        = (.ret (.obj [("error", .str "No update parameters provided")]), []) :=
  ⟨by decide, C9_update_no_params envOk none "120210000000" (by decide)⟩

/-! ### Claim C10 -/

/-- C10: even with a non-empty `campaign_id`, a `get_adsets` call without an
`account_id` still performs the ad-accounts lookup first and fails with the
no-accounts envelope when the `data` list is empty — although every
dispatcher call it could make targets the campaign path, which never uses
the resolved account id. -/
theorem C10_campaign_filter_still_resolves_account
    (env : ApiEnv) (tok : Option String) (account_id : Option String)
    (limit : Int) (campaign_id : String)
    (hc : campaign_id ≠ "") (h : strOptFalsy account_id = true) :
    (get_adsets env tok account_id limit campaign_id).2.head?
        = some (Call.getAdAccounts "me" limitOneArg tok)
    ∧ (lookupField env.accounts "data" = some (.arr []) →
        (get_adsets env tok account_id limit campaign_id).1 = .ret noAccountsEnvelope
        ∧ ∀ e t p m,
            Call.apiRequest e t p m ∉ (get_adsets env tok account_id limit campaign_id).2)
    ∧ (∀ e t p m,
        Call.apiRequest e t p m ∈ (get_adsets env tok account_id limit campaign_id).2 →
        e = campaign_id ++ "/adsets") := by
  refine ⟨?_, ?_, ?_⟩
  · rcases resolveAccountId_falsy_trace env tok account_id h with ⟨s, hr⟩ | ⟨out, hr⟩
    · simp only [get_adsets, hr]
      split <;> simp
    · simp only [get_adsets, hr]
      simp
  · intro hd
    have hr := resolveAccountId_empty env tok account_id h hd
    simp [get_adsets, hr, noAccountsEnvelope]
  · intro e t p m hmem
    exact (getAdsets_campaign_calls env tok account_id limit campaign_id hc e t p m hmem).1

/-- Witness environment whose accounts payload has an empty `data` list. -/
def envNoAccounts : ApiEnv :=
  ⟨[("data", .arr [])], fun _ _ _ => .ok .null⟩

theorem C10_witness :
    ("camp9" : String) ≠ ""
    ∧ strOptFalsy (none : Option String) = true
    ∧ (get_adsets envNoAccounts none none 10 "camp9").1 = .ret noAccountsEnvelope :=
  ⟨by decide, by decide,
    ((C10_campaign_filter_still_resolves_account envNoAccounts none none 10 "camp9"
        (by decide) (by decide)).2.1 (by decide)).1⟩

/-! ### Claim C4 -/

/-- C4: whenever the dispatcher raises, `create_adset` and `update_adset`
catch the exception and return an envelope holding exactly the keys
`error`, `details` and `params_sent`, instead of propagating it. -/
theorem C4_dispatcher_error_envelope
    (env : ApiEnv) (tok : Option String) (msg : String) :
    (∀ a : CreateAdsetArgs,
      strOptFalsy a.account_id = false → strOptFalsy a.campaign_id = false →
      strOptFalsy a.name = false → strOptFalsy a.optimization_goal = false →
      strOptFalsy a.billing_event = false →
      env.api (a.account_id.getD "" ++ "/adsets") (create_adset_params a) "POST"
        = .error msg →
      create_adset env tok a
        = (.ret (.obj [("error", .str "Failed to create ad set"),
                       ("details", .str msg),
                       ("params_sent", .obj (create_adset_params a))]),
           [Call.apiRequest (a.account_id.getD "" ++ "/adsets") tok
              (create_adset_params a) "POST"])
      ∧ ([("error", JVal.str "Failed to create ad set"),
          ("details", JVal.str msg),
          ("params_sent", JVal.obj (create_adset_params a))].map Prod.fst
            = ["error", "details", "params_sent"]))
    ∧ (∀ (adset_id : String) (a : UpdateAdsetArgs),
      adset_id ≠ "" → (update_adset_params a).isEmpty = false →
      env.api adset_id (update_adset_params a) "POST" = .error msg →
      update_adset env tok adset_id a
        = (.ret (.obj [("error", .str ("Failed to update ad set " ++ adset_id)),
                       ("details", .str msg),
                       ("params_sent", .obj (update_adset_params a))]),
           [Call.apiRequest adset_id tok (update_adset_params a) "POST"])
      ∧ ([("error", JVal.str ("Failed to update ad set " ++ adset_id)),
          ("details", JVal.str msg),
          ("params_sent", JVal.obj (update_adset_params a))].map Prod.fst
            = ["error", "details", "params_sent"])) := by
  constructor
  · intro a h1 h2 h3 h4 h5 hapi
    refine ⟨?_, by simp⟩
    simp [create_adset, h1, h2, h3, h4, h5, hapi]
  · intro adset_id a h1 h2 hapi
    refine ⟨?_, by simp⟩
    simp [update_adset, h1, h2, hapi]

/-- Witness environment whose dispatcher always raises. -/
def envRaise : ApiEnv := ⟨[], fun _ _ _ => .error "boom"⟩

/-- Witness arguments for a non-trivial `update_adset` call. -/
def uargsOne : UpdateAdsetArgs := ⟨none, some "LOWEST_COST", none, none, none, none⟩

theorem C4_witness :
    create_adset envRaise none cargsOk
      = (.ret (.obj [("error", .str "Failed to create ad set"),
                     ("details", .str "boom"),
                     ("params_sent", .obj (create_adset_params cargsOk))]),
         [Call.apiRequest (cargsOk.account_id.getD "" ++ "/adsets") none
            (create_adset_params cargsOk) "POST"])
    ∧ update_adset envRaise none "as1" uargsOne
      = (.ret (.obj [("error", .str ("Failed to update ad set " ++ "as1")),
                     ("details", .str "boom"),
                     ("params_sent", .obj (update_adset_params uargsOne))]),
         [Call.apiRequest "as1" none (update_adset_params uargsOne) "POST"]) :=
  ⟨((C4_dispatcher_error_envelope envRaise none "boom").1 cargsOk
      (by decide) (by decide) (by decide) (by decide) (by decide) rfl).1,
   ((C4_dispatcher_error_envelope envRaise none "boom").2 "as1" uargsOne
      (by decide) (by decide) rfl).1⟩

/-! ### Claim C2 -/

/-- Sample frequency-cap list, as in the docstring of `update_adset`. -/
def fcsSample : List JVal :=
  [.obj [("event", .str "IMPRESSIONS"), ("interval_days", .int 7),
         ("max_frequency", .int 3)]]

/-- C2 fails on the code: an `update_adset` call carrying only a
frequency-cap list hands the dispatcher a params mapping whose
`frequency_control_specs` value is the native list itself, which is not a
JSON-encoded string. -/
theorem C2_fcs_passed_native :
    (update_adset envOk none "120210000000"
        ⟨some fcsSample, none, none, none, none, none⟩).2
      = [Call.apiRequest "120210000000" none
          [("frequency_control_specs", .arr fcsSample)] "POST"]
    ∧ ∀ s : String, JVal.arr fcsSample ≠ JVal.str s := by
  exact ⟨by decide, fun s h => JVal.noConfusion h⟩

/-- C2 amended: targeting mappings are JSON-encoded before dispatch —
always in `create_adset`, and in `update_adset` whenever `targeting` is a
dict — but `update_adset` places `frequency_control_specs` into the params
as the native list, never JSON-encoding it. -/
theorem C2_amended_structured_params :
    (∀ (a : UpdateAdsetArgs) (kvs : List (String × JVal)),
        a.targeting = some (.obj kvs) →
        lookupField (update_adset_params a) "targeting"
          = some (.str (dumps (.obj kvs))))
    ∧ (∀ (a : UpdateAdsetArgs) (l : List JVal),
        a.frequency_control_specs = some l →
        lookupField (update_adset_params a) "frequency_control_specs"
          = some (.arr l))
    ∧ (∀ c : CreateAdsetArgs,
        lookupField (create_adset_params c) "targeting"
          = some (.str (dumps (.obj (resolvedTargeting c))))) := by
  refine ⟨?_, ?_, ?_⟩
  · intro a kvs ht
    obtain ⟨fcs, bs, ba, st, tg, og⟩ := a
    simp only at ht
    subst ht
    rcases fcs <;> rcases bs <;> rcases ba <;> rcases st <;> rcases og <;>
      simp [update_adset_params, lookupField]
  · intro a l hf
    obtain ⟨fcs, bs, ba, st, tg, og⟩ := a
    simp only at hf
    subst hf
    simp [update_adset_params, lookupField]
  · intro c
    simp [create_adset_params, lookupField]

theorem C2_amended_witness :
    lookupField (update_adset_params ⟨some fcsSample, none, none, none,
        some (.obj [("age_min", .int 18)]), none⟩) "targeting"
      = some (.str (dumps (.obj [("age_min", .int 18)])))
    ∧ lookupField (update_adset_params ⟨some fcsSample, none, none, none,
        some (.obj [("age_min", .int 18)]), none⟩) "frequency_control_specs"
      = some (.arr fcsSample) :=
  ⟨C2_amended_structured_params.1 _ [("age_min", .int 18)] rfl,
   C2_amended_structured_params.2.1 _ fcsSample rfl⟩

/-! ### Claim C6 -/

/-- Environment whose dispatcher succeeds with a payload that has no
`frequency_control_specs` field. -/
def envNoFcs : ApiEnv := ⟨[], fun _ _ _ => .ok (.obj [("id", .str "123")])⟩

/-- C6 fails on the code: on a successful response without
`frequency_control_specs`, `get_adset_details` does not return the payload
verbatim — it appends a `_meta` debugging note. -/
theorem C6_details_adds_meta_note :
    (get_adset_details envNoFcs none (some "123")).1
      = .ret (.obj [("id", .str "123"), ("_meta", fcsAbsentNote)])
    ∧ (get_adset_details envNoFcs none (some "123")).1
      ≠ .ret (.obj [("id", .str "123")]) := by
  exact ⟨by decide, by decide⟩

/-- C6 amended: on success `get_adsets`, `create_adset` and `update_adset`
return the decoded payload verbatim, and so does `get_adset_details` when
the payload contains `frequency_control_specs`; when that field is absent
from a dict payload, `get_adset_details` returns the payload with a
`_meta` note appended. -/
theorem C6_amended_passthrough :
    ∀ (env : ApiEnv) (tok : Option String) (data : JVal),
    (∀ e p m, env.api e p m = .ok data) →
    (∀ (acc : Option String) (limit : Int) (camp : String),
        strOptFalsy acc = false →
        (get_adsets env tok acc limit camp).1 = .ret data)
    ∧ (∀ a : CreateAdsetArgs,
        strOptFalsy a.account_id = false → strOptFalsy a.campaign_id = false →
        strOptFalsy a.name = false → strOptFalsy a.optimization_goal = false →
        strOptFalsy a.billing_event = false →
        (create_adset env tok a).1 = .ret data)
    ∧ (∀ (adset_id : String) (a : UpdateAdsetArgs),
        adset_id ≠ "" → (update_adset_params a).isEmpty = false →
        (update_adset env tok adset_id a).1 = .ret data)
    ∧ (∀ (id : Option String) (kvs : List (String × JVal)),
        strOptFalsy id = false → data = .obj kvs →
        ((lookupField kvs "frequency_control_specs").isSome →
            (get_adset_details env tok id).1 = .ret data)
        ∧ (lookupField kvs "frequency_control_specs" = none →
            (get_adset_details env tok id).1
              = .ret (.obj (setField kvs "_meta" fcsAbsentNote)))) := by
  intro env tok data hapi
  refine ⟨?_, ?_, ?_, ?_⟩
  · intro acc limit camp hacc
    have hr : resolveAccountId env tok acc = .ok (acc.getD "", []) := by
      unfold resolveAccountId
      simp [hacc]
    simp [get_adsets, hr, hapi]
  · intro a h1 h2 h3 h4 h5
    simp [create_adset, h1, h2, h3, h4, h5, hapi]
  · intro adset_id a h1 h2
    simp [update_adset, h1, h2, hapi]
  · intro id kvs hid hdata
    subst hdata
    constructor
    · intro hsome
      have hck : pyContainsKey (.obj kvs) "frequency_control_specs" = .ok true := by
        simp [pyContainsKey, hsome]
      simp [get_adset_details, hid, hapi, hck]
    · intro hnone
      have hck : pyContainsKey (.obj kvs) "frequency_control_specs" = .ok false := by
        simp [pyContainsKey, hnone]
      simp [get_adset_details, hid, hapi, hck]

theorem C6_amended_witness :
    (get_adsets envOk none (some "act_1") 10 "").1 = .ret (.obj [("ok", .bool true)])
    ∧ (get_adset_details envOk none (some "123")).1
      = .ret (.obj (setField [("ok", .bool true)] "_meta" fcsAbsentNote)) :=
  ⟨(C6_amended_passthrough envOk none (.obj [("ok", .bool true)]) (fun _ _ _ => rfl)).1
      (some "act_1") 10 "" (by decide),
   ((C6_amended_passthrough envOk none (.obj [("ok", .bool true)]) (fun _ _ _ => rfl)).2.2.2
      (some "123") [("ok", .bool true)] (by decide) rfl).2 (by decide)⟩

/-! ### Claim C7: a json.loads model

`json.loads` is modelled as a recursive-descent reader over the character
list, restricted to the fragment of JSON the tools emit (numbers are
integers; objects decode to association lists in textual order, which
agrees with Python's dict construction whenever keys are distinct).  The
recursion is structural on an explicit fuel counter. -/

/-- JSON whitespace. -/
def isBlankCh (c : Char) : Bool := c = ' ' || c = '\n' || c = '\t' || c = '\r'

/-- ASCII decimal digit test. -/
def isDigitCh (c : Char) : Bool := 48 ≤ c.toNat && c.toNat ≤ 57

/-- Drop leading JSON whitespace. -/
def skipBlank : List Char → List Char
  | c :: cs => if isBlankCh c then skipBlank cs else c :: cs
  | [] => []

/-- Split off the maximal leading digit run. -/
def grabDigits : List Char → List Char × List Char
  | c :: cs =>
      if isDigitCh c then
        let (ds, r) := grabDigits cs
        (c :: ds, r)
      else ([], c :: cs)
  | [] => ([], [])

/-- Value of a digit run, most significant digit first. -/
def digitsVal (ds : List Char) : Nat :=
  ds.foldl (fun acc c => acc * 10 + (c.toNat - 48)) 0

/-- Read an integer: optional minus sign, then at least one digit. -/
def readInt (cs : List Char) : Option (Int × List Char) :=
  match cs with
  | '-' :: rest =>
      match grabDigits rest with
      | ([], _) => none
      | (ds, r) => some (-(digitsVal ds : Int), r)
  | _ =>
      match grabDigits cs with
      | ([], _) => none
      | (ds, r) => some ((digitsVal ds : Int), r)

/-- Value of a hexadecimal digit character. -/
def hexVal (c : Char) : Option Nat :=
  if 48 ≤ c.toNat ∧ c.toNat ≤ 57 then some (c.toNat - 48)
  else if 97 ≤ c.toNat ∧ c.toNat ≤ 102 then some (c.toNat - 87)
  else if 65 ≤ c.toNat ∧ c.toNat ≤ 70 then some (c.toNat - 55)
  else none

/-- Single-character escapes accepted after a backslash: the named control
characters, and the three characters that escape to themselves. -/
def unescCh (e : Char) : Option Char :=
  if e = 'n' then some '\n'
  else if e = 't' then some '\t'
  else if e = 'r' then some '\r'
  else if e = 'b' then some (Char.ofNat 8)
  else if e = 'f' then some (Char.ofNat 12)
  else if e = '"' ∨ e = '\\' ∨ e = '/' then some e
  else none

/-- Read the body of a string literal after the opening quote, undoing
escapes, until the closing quote. -/
def readStr (acc : List Char) : List Char → Option (String × List Char)
  | '"' :: rest => some (String.mk acc.reverse, rest)
  | '\\' :: 'u' :: h1 :: h2 :: h3 :: h4 :: rest =>
      match hexVal h1, hexVal h2, hexVal h3, hexVal h4 with
      | some a, some b, some c, some d =>
          readStr (Char.ofNat (((a * 16 + b) * 16 + c) * 16 + d) :: acc) rest
      | _, _, _, _ => none
  | '\\' :: e :: rest =>
      match unescCh e with
      | some ch => readStr (ch :: acc) rest
      | none => none
  | c :: rest => readStr (c :: acc) rest
  | [] => none

mutual

/-- Read one JSON value. -/
def parseVal : Nat → List Char → Option (JVal × List Char)
  | 0, _ => none
  | fuel + 1, cs =>
      match skipBlank cs with
      | 'n' :: 'u' :: 'l' :: 'l' :: r => some (.null, r)
      | 't' :: 'r' :: 'u' :: 'e' :: r => some (.bool true, r)
      | 'f' :: 'a' :: 'l' :: 's' :: 'e' :: r => some (.bool false, r)
      | '"' :: r =>
          match readStr [] r with
          | some (s, r') => some (.str s, r')
          | none => none
      | '[' :: r =>
          match skipBlank r with
          | [] => none
          | c0 :: r0 =>
              if c0 = ']' then some (.arr [], r0)
              else
                match parseItems fuel (c0 :: r0) with
                | some (l, r') => some (.arr l, r')
                | none => none
      | '{' :: r =>
          match skipBlank r with
          | [] => none
          | c0 :: r0 =>
              if c0 = '}' then some (.obj [], r0)
              else
                match parseFields fuel (c0 :: r0) with
                | some (kvs, r') => some (.obj kvs, r')
                | none => none
      | c :: rest =>
          if c = '-' || isDigitCh c then
            match readInt (c :: rest) with
            | some (n, r') => some (.int n, r')
            | none => none
          else none
      | [] => none

/-- Read one or more comma-separated array elements and the closing
bracket. -/
def parseItems : Nat → List Char → Option (List JVal × List Char)
  | 0, _ => none
  | fuel + 1, cs =>
      match parseVal fuel cs with
      | none => none
      | some (v, r) =>
          match skipBlank r with
          | ',' :: r' =>
              match parseItems fuel (skipBlank r') with
              | some (l, r'') => some (v :: l, r'')
              | none => none
          | ']' :: r' => some ([v], r')
          | _ => none

/-- Read one or more comma-separated object members and the closing
brace. -/
def parseFields : Nat → List Char → Option (List (String × JVal) × List Char)
  | 0, _ => none
  | fuel + 1, cs =>
      match skipBlank cs with
      | '"' :: r =>
          match readStr [] r with
          | none => none
          | some (k, r1) =>
              match skipBlank r1 with
              | ':' :: r2 =>
                  match parseVal fuel (skipBlank r2) with
                  | none => none
                  | some (v, r3) =>
                      match skipBlank r3 with
                      | ',' :: r4 =>
                          match parseFields fuel (skipBlank r4) with
                          | some (kvs, r5) => some ((k, v) :: kvs, r5)
                          | none => none
                      | '}' :: r4 => some ([(k, v)], r4)
                      | _ => none
              | _ => none
      | _ => none

end

/-- Model of Python's `json.loads` on the integer fragment of JSON:
read one value, then require only whitespace to remain. -/
def loads (s : String) : Option JVal :=
  match parseVal (s.toList.length + 1) s.toList with
  | some (v, r) => if (skipBlank r).isEmpty then some v else none
  | none => none

/-- Distinctness of a key list. -/
def distinctKeys : List String → Bool
  | [] => true
  | k :: rest => !(rest.contains k) && distinctKeys rest

mutual

/-- Every object inside the value has pairwise-distinct keys — the
invariant every value arising from a Python dict satisfies, under which
the association-list reading of objects coincides with Python's
last-wins dict construction. -/
def nodupKeys : JVal → Bool
  | .arr l => nodupKeysItems l
  | .obj kvs => distinctKeys (kvs.map Prod.fst) && nodupKeysFields kvs
  | _ => true

/-- List version of `nodupKeys`. -/
def nodupKeysItems : List JVal → Bool
  | [] => true
  | v :: rest => nodupKeys v && nodupKeysItems rest

/-- Member version of `nodupKeys`. -/
def nodupKeysFields : List (String × JVal) → Bool
  | [] => true
  | (_, v) :: rest => nodupKeys v && nodupKeysFields rest

end

/-! ### Round-trip, layer 1: decimal digits -/

theorem digitCh_mod (n : Nat) : digitCh (n % 10) = digitCh n := by
  unfold digitCh
  congr 1
  omega

theorem digitCh_val (d : Nat) (h : d < 10) : (digitCh d).toNat = 48 + d := by
  interval_cases d <;> decide

theorem digitCh_digit (d : Nat) : isDigitCh (digitCh d) = true := by
  rw [← digitCh_mod]
  have h : d % 10 < 10 := Nat.mod_lt _ (by omega)
  revert h
  generalize d % 10 = e
  intro h
  interval_cases e <;> decide

theorem digitsGo_shift :
    ∀ (f n : Nat) (acc : List Char), n < f → digitsGo f n acc = digitsGo f n [] ++ acc := by
  intro f
  induction f with
  | zero => exact fun n acc h => absurd h (Nat.not_lt_zero n)
  | succ f ih =>
      intro n acc h
      by_cases h10 : n < 10
      · simp [digitsGo, h10]
      · have hlt : n / 10 < f := by omega
        simp only [digitsGo, if_neg h10]
        rw [ih (n / 10) _ hlt, ih (n / 10) [digitCh (n % 10)] hlt]
        simp

theorem digitsGo_eq_natChars :
    ∀ n f : Nat, n < f → digitsGo f n [] = natChars n := by
  intro n
  induction n using Nat.strong_induction_on with
  | _ n ih =>
      intro f hf
      match f, hf with
      | f + 1, hf =>
          by_cases h10 : n < 10
          · simp [digitsGo, natChars, h10]
          · simp only [natChars, digitsGo, if_neg h10]
            rw [digitsGo_shift f (n / 10) _ (by omega),
                digitsGo_shift n (n / 10) _ (by omega),
                ih (n / 10) (by omega) f (by omega),
                ih (n / 10) (by omega) n (by omega)]

theorem digitsGo_succ (f n : Nat) (acc : List Char) :
    digitsGo (f + 1) n acc
      = if n < 10 then digitCh n :: acc
        else digitsGo f (n / 10) (digitCh (n % 10) :: acc) := rfl

theorem natChars_unfold (n : Nat) :
    natChars n = (if n < 10 then [] else natChars (n / 10)) ++ [digitCh n] := by
  by_cases h10 : n < 10
  · simp [natChars, digitsGo, h10]
  · rw [natChars, digitsGo_succ, if_neg h10, if_neg h10,
        digitsGo_shift n (n / 10) _ (by omega),
        digitsGo_eq_natChars (n / 10) n (by omega), digitCh_mod]

theorem natChars_ne_nil (n : Nat) : natChars n ≠ [] := by
  rw [natChars_unfold]
  simp

theorem natChars_digits (n : Nat) : ∀ c ∈ natChars n, isDigitCh c = true := by
  induction n using Nat.strong_induction_on with
  | _ n ih =>
      rw [natChars_unfold]
      intro c hc
      rcases List.mem_append.mp hc with h | h
      · by_cases h10 : n < 10
        · simp [h10] at h
        · exact ih (n / 10) (by omega) c (by simpa [h10] using h)
      · rw [List.mem_singleton] at h
        subst h
        exact digitCh_digit n

theorem natChars_head (n : Nat) :
    ∃ c t, natChars n = c :: t ∧ isDigitCh c = true := by
  rcases h : natChars n with _ | ⟨c, t⟩
  · exact absurd h (natChars_ne_nil n)
  · exact ⟨c, t, rfl, natChars_digits n c (h ▸ List.mem_cons_self c t)⟩

theorem digitsVal_snoc (ds : List Char) (c : Char) :
    digitsVal (ds ++ [c]) = digitsVal ds * 10 + (c.toNat - 48) := by
  simp [digitsVal, List.foldl_append]

theorem digitsVal_natChars (n : Nat) : digitsVal (natChars n) = n := by
  induction n using Nat.strong_induction_on with
  | _ n ih =>
      rw [natChars_unfold]
      by_cases h10 : n < 10
      · simp only [if_pos h10, List.nil_append]
        have hv := digitCh_val n h10
        simp [digitsVal, hv]
      · simp only [if_neg h10]
        rw [digitsVal_snoc, ih (n / 10) (by omega), ← digitCh_mod,
            digitCh_val (n % 10) (by omega)]
        omega

/-! ### Round-trip, layer 2: digit runs and integers -/

/-- True when the input cannot extend a digit run: empty, or headed by a
non-digit.  Every delimiter the renderer emits after a number qualifies. -/
def noDigitHead : List Char → Bool
  | [] => true
  | c :: _ => !isDigitCh c

theorem grabDigits_stop (cs : List Char) (h : noDigitHead cs = true) :
    grabDigits cs = ([], cs) := by
  cases cs with
  | nil => rfl
  | cons c t =>
      simp only [noDigitHead, Bool.not_eq_true'] at h
      simp [grabDigits, h]

theorem grabDigits_run (ds : List Char) (hds : ∀ c ∈ ds, isDigitCh c = true)
    (rest : List Char) (hrest : grabDigits rest = ([], rest)) :
    grabDigits (ds ++ rest) = (ds, rest) := by
  induction ds with
  | nil => simpa using hrest
  | cons c t ih =>
      have hc := hds c (List.mem_cons_self c t)
      have ht := ih fun x hx => hds x (List.mem_cons_of_mem c hx)
      simp [grabDigits, hc, ht]

theorem digit_ne_minus {c : Char} (h : isDigitCh c = true) : c ≠ '-' := by
  intro he
  subst he
  exact absurd h (by decide)

theorem readInt_intChars (i : Int) (rest : List Char) (hr : noDigitHead rest = true) :
    readInt (intChars i ++ rest) = some (i, rest) := by
  by_cases hneg : i < 0
  · have harg : intChars i ++ rest = '-' :: (natChars i.natAbs ++ rest) := by
      simp [intChars, hneg]
    obtain ⟨c, t, hnc, hc⟩ := natChars_head i.natAbs
    have hgrab : grabDigits (natChars i.natAbs ++ rest) = (natChars i.natAbs, rest) :=
      grabDigits_run _ (natChars_digits _) _ (grabDigits_stop _ hr)
    rw [harg]
    simp only [readInt]
    rw [hgrab, hnc]
    show some (-(digitsVal (c :: t) : Int), rest) = some (i, rest)
    have hdv : digitsVal (c :: t) = i.natAbs := by
      rw [← hnc, digitsVal_natChars]
    rw [hdv]
    have hi : (-(i.natAbs : Int)) = i := by omega
    rw [hi]
  · obtain ⟨c, t, hnc, hc⟩ := natChars_head i.natAbs
    have harg : intChars i ++ rest = c :: (t ++ rest) := by
      simp [intChars, hneg, hnc]
    have hgrab : grabDigits (c :: (t ++ rest)) = (c :: t, rest) := by
      have := grabDigits_run (natChars i.natAbs) (natChars_digits _) rest
        (grabDigits_stop _ hr)
      rw [hnc] at this
      simpa using this
    rw [harg]
    rw [readInt.eq_def]
    split
    · rename_i rest' heq
      rw [List.cons.injEq] at heq
      exact absurd heq.1 (digit_ne_minus hc)
    · rw [hgrab]
      show some ((digitsVal (c :: t) : Int), rest) = some (i, rest)
      have hdv : digitsVal (c :: t) = i.natAbs := by
        rw [← hnc, digitsVal_natChars]
      rw [hdv]
      have hi : ((i.natAbs : Int)) = i := by omega
      rw [hi]

/-! ### Round-trip, layer 3: string escapes -/

theorem hexVal_hexCh (d : Nat) (h : d < 16) : hexVal (hexCh d) = some d := by
  interval_cases d <;> decide

theorem readStr_esc (c : Char) (acc rest : List Char) :
    readStr acc (escCh c ++ rest) = readStr (c :: acc) rest := by
  unfold escCh
  split_ifs with h1 h2 h3 h4 h5 h6 h7 h8
  · subst h1; rfl
  · subst h2; rfl
  · subst h3; rfl
  · subst h4; rfl
  · subst h5; rfl
  · have hc : Char.ofNat 8 = c := by
      rw [← h6]
      exact Char.ofNat_toNat c
    show readStr acc ('\\' :: 'b' :: rest) = readStr (c :: acc) rest
    rw [← hc]
    rfl
  · have hc : Char.ofNat 12 = c := by
      rw [← h7]
      exact Char.ofNat_toNat c
    show readStr acc ('\\' :: 'f' :: rest) = readStr (c :: acc) rest
    rw [← hc]
    rfl
  · show readStr acc
        ('\\' :: 'u' :: '0' :: '0'
          :: hexCh (c.toNat / 16) :: hexCh (c.toNat % 16) :: rest)
      = readStr (c :: acc) rest
    have e1 : hexVal '0' = some 0 := by decide
    have e2 := hexVal_hexCh (c.toNat / 16) (by omega)
    have e3 := hexVal_hexCh (c.toNat % 16) (by omega)
    simp only [readStr, e1, e2, e3]
    have harith : ((0 * 16 + 0) * 16 + c.toNat / 16) * 16 + c.toNat % 16 = c.toNat := by
      omega
    rw [harith, Char.ofNat_toNat]
  · show readStr acc (c :: rest) = readStr (c :: acc) rest
    conv_lhs => rw [readStr.eq_def]
    split
    · rename_i heq
      rw [List.cons.injEq] at heq
      exact absurd heq.1 h1
    · rename_i heq
      rw [List.cons.injEq] at heq
      exact absurd heq.1 h2
    · rename_i heq
      rw [List.cons.injEq] at heq
      exact absurd heq.1 h2
    · rename_i c' rest' heq
      rw [List.cons.injEq] at heq
      rw [heq.1, heq.2]
    · rename_i heq
      exact absurd heq (List.cons_ne_nil c rest)

theorem readStr_escList :
    ∀ (l : List Char) (acc rest : List Char),
      readStr acc (escList l ++ '"' :: rest)
        = some (String.mk (acc.reverse ++ l), rest)
  | [], acc, rest => by simp [escList, readStr]
  | c :: l, acc, rest => by
      rw [escList, List.append_assoc, readStr_esc, readStr_escList l (c :: acc) rest]
      simp

theorem readStr_strBody (s : String) (rest : List Char) :
    readStr [] (escList s.toList ++ '"' :: rest) = some (s, rest) := by
  rw [readStr_escList s.toList [] rest]
  rfl

/-! ### Round-trip, layer 4: heads of rendered output -/

theorem digit_ne {c : Char} (h : isDigitCh c = true) (d : Char)
    (hd : isDigitCh d = false) : c ≠ d := by
  intro he
  rw [he, hd] at h
  cases h

theorem digit_not_blank {c : Char} (h : isDigitCh c = true) : isBlankCh c = false := by
  rcases hb : isBlankCh c with _ | _
  · rfl
  · simp only [isBlankCh, Bool.or_eq_true, decide_eq_true_eq] at hb
    rcases hb with ((h1 | h1) | h1) | h1 <;> (subst h1; exact absurd h (by decide))

theorem dumpChars_head (v : JVal) :
    ∃ c t, dumpChars v = c :: t ∧ isBlankCh c = false ∧ c ≠ ']' ∧ c ≠ '}' := by
  cases v with
  | null => exact ⟨'n', ['u', 'l', 'l'], rfl, by decide, by decide, by decide⟩
  | bool b =>
      cases b with
      | true => exact ⟨'t', ['r', 'u', 'e'], rfl, by decide, by decide, by decide⟩
      | false => exact ⟨'f', ['a', 'l', 's', 'e'], rfl, by decide, by decide, by decide⟩
  | str s => exact ⟨'"', _, rfl, by decide, by decide, by decide⟩
  | arr l => exact ⟨'[', _, rfl, by decide, by decide, by decide⟩
  | obj kvs => exact ⟨'{', _, rfl, by decide, by decide, by decide⟩
  | int i =>
      by_cases hneg : i < 0
      · refine ⟨'-', natChars i.natAbs, ?_, by decide, by decide, by decide⟩
        show intChars i = _
        simp [intChars, hneg]
      · obtain ⟨c, t, hnc, hc⟩ := natChars_head i.natAbs
        refine ⟨c, t, ?_, digit_not_blank hc, digit_ne hc ']' (by decide),
          digit_ne hc '}' (by decide)⟩
        show intChars i = _
        simp [intChars, hneg, hnc]

theorem skipBlank_dump (v : JVal) (x : List Char) :
    skipBlank (dumpChars v ++ x) = dumpChars v ++ x := by
  obtain ⟨c, t, hd, hb, _, _⟩ := dumpChars_head v
  rw [hd, List.cons_append]
  simp [skipBlank, hb]

theorem dumpItems_front (v : JVal) (vs : List JVal) :
    ∃ y, dumpItems (v :: vs) = dumpChars v ++ y := by
  cases vs with
  | nil => exact ⟨[], by simp [dumpItems]⟩
  | cons w ws => exact ⟨',' :: ' ' :: dumpItems (w :: ws), rfl⟩

theorem skipBlank_dumpItems (v : JVal) (vs : List JVal) (x : List Char) :
    skipBlank (dumpItems (v :: vs) ++ x) = dumpItems (v :: vs) ++ x := by
  obtain ⟨y, hy⟩ := dumpItems_front v vs
  rw [hy, List.append_assoc, skipBlank_dump]

theorem skipBlank_dumpFields (kv : String × JVal) (ms : List (String × JVal))
    (x : List Char) :
    skipBlank (dumpFields (kv :: ms) ++ x) = dumpFields (kv :: ms) ++ x := by
  obtain ⟨k, w⟩ := kv
  cases ms with
  | nil => rw [show dumpFields [(k, w)] = strChars k ++ ':' :: ' ' :: dumpChars w from rfl]
           simp [strChars, skipBlank, isBlankCh]
  | cons m rest =>
      rw [show dumpFields ((k, w) :: m :: rest)
            = strChars k ++ ':' :: ' ' :: dumpChars w ++ ',' :: ' ' :: dumpFields (m :: rest)
          from rfl]
      simp [strChars, skipBlank, isBlankCh]

/-! ### Round-trip, layer 5: branch selection in parseVal -/

theorem parseVal_digit_start (fuel : Nat) (c0 : Char) (t : List Char)
    (h : isDigitCh c0 = true) :
    parseVal (fuel + 1) (c0 :: t)
      = match readInt (c0 :: t) with
        | some (n, r') => some (.int n, r')
        | none => none := by
  have hb := digit_not_blank h
  have hn : c0 ≠ 'n' := digit_ne h 'n' (by decide)
  have ht : c0 ≠ 't' := digit_ne h 't' (by decide)
  have hf : c0 ≠ 'f' := digit_ne h 'f' (by decide)
  have hq : c0 ≠ '"' := digit_ne h '"' (by decide)
  have hlb : c0 ≠ '[' := digit_ne h '[' (by decide)
  have hob : c0 ≠ '\x7b' := digit_ne h '\x7b' (by decide)
  simp only [parseVal]
  rw [show skipBlank (c0 :: t) = c0 :: t from by simp [skipBlank, hb]]
  simp [hn, ht, hf, hq, hlb, hob, h]

theorem parseVal_openArrCons (fuel : Nat) (c : Char) (r : List Char)
    (hb : isBlankCh c = false) (hne : c ≠ ']') :
    parseVal (fuel + 1) ('[' :: c :: r)
      = match parseItems fuel (c :: r) with
        | some (l, r') => some (.arr l, r')
        | none => none := by
  show (match skipBlank (c :: r) with
        | [] => none
        | c0 :: r0 =>
            if c0 = ']' then some (JVal.arr [], r0)
            else
              match parseItems fuel (c0 :: r0) with
              | some (l, r') => some (JVal.arr l, r')
              | none => none)
      = match parseItems fuel (c :: r) with
        | some (l, r') => some (JVal.arr l, r')
        | none => none
  rw [show skipBlank (c :: r) = c :: r from by simp [skipBlank, hb]]
  simp [hne]

theorem parseVal_openObjCons (fuel : Nat) (c : Char) (r : List Char)
    (hb : isBlankCh c = false) (hne : c ≠ '\x7d') :
    parseVal (fuel + 1) ('\x7b' :: c :: r)
      = match parseFields fuel (c :: r) with
        | some (kvs, r') => some (.obj kvs, r')
        | none => none := by
  show (match skipBlank (c :: r) with
        | [] => none
        | c0 :: r0 =>
            if c0 = '\x7d' then some (JVal.obj [], r0)
            else
              match parseFields fuel (c0 :: r0) with
              | some (kvs, r') => some (JVal.obj kvs, r')
              | none => none)
      = match parseFields fuel (c :: r) with
        | some (kvs, r') => some (JVal.obj kvs, r')
        | none => none
  rw [show skipBlank (c :: r) = c :: r from by simp [skipBlank, hb]]
  simp [hne]

theorem noDigitHead_cons {c : Char} (h : isDigitCh c = false) (t : List Char) :
    noDigitHead (c :: t) = true := by
  simp [noDigitHead, h]

theorem parseVal_int (i : Int) (fuel : Nat) (rest : List Char)
    (hr : noDigitHead rest = true) :
    parseVal (fuel + 1) (intChars i ++ rest) = some (.int i, rest) := by
  by_cases hneg : i < 0
  · have harg : intChars i ++ rest = '-' :: (natChars i.natAbs ++ rest) := by
      simp [intChars, hneg]
    have hread := readInt_intChars i rest hr
    rw [harg] at hread ⊢
    show (match readInt ('-' :: (natChars i.natAbs ++ rest)) with
          | some (n, r') => some (JVal.int n, r')
          | none => none) = some (.int i, rest)
    rw [hread]
  · obtain ⟨c, t, hnc, hc⟩ := natChars_head i.natAbs
    have harg : intChars i ++ rest = c :: (t ++ rest) := by
      simp [intChars, hneg, hnc]
    have hread := readInt_intChars i rest hr
    rw [harg] at hread ⊢
    rw [parseVal_digit_start fuel c _ hc, hread]

theorem dumpFields_front (k : String) (w : JVal) (ms : List (String × JVal)) :
    ∃ y, dumpFields ((k, w) :: ms) = '"' :: y := by
  cases ms with
  | nil =>
      exact ⟨escList k.toList ++ ['"'] ++ ':' :: ' ' :: dumpChars w,
        by simp [dumpFields, strChars]⟩
  | cons m rest =>
      exact ⟨escList k.toList ++ ['"']
          ++ ':' :: ' ' :: dumpChars w ++ ',' :: ' ' :: dumpFields (m :: rest),
        by simp [dumpFields, strChars]⟩

/-! ### Round-trip, layer 6: the mutual induction -/

mutual

theorem rt_val : ∀ (v : JVal) (fuel : Nat) (rest : List Char),
    (dumpChars v).length < fuel → noDigitHead rest = true →
    parseVal fuel (dumpChars v ++ rest) = some (v, rest)
  | .null, fuel, rest, hf, _ => by
      cases fuel with
      | zero => exact absurd hf (Nat.not_lt_zero _)
      | succ f => rfl
  | .bool true, fuel, rest, hf, _ => by
      cases fuel with
      | zero => exact absurd hf (Nat.not_lt_zero _)
      | succ f => rfl
  | .bool false, fuel, rest, hf, _ => by
      cases fuel with
      | zero => exact absurd hf (Nat.not_lt_zero _)
      | succ f => rfl
  | .int i, fuel, rest, hf, hr => by
      cases fuel with
      | zero => exact absurd hf (Nat.not_lt_zero _)
      | succ f => exact parseVal_int i f rest hr
  | .str s, fuel, rest, hf, _ => by
      cases fuel with
      | zero => exact absurd hf (Nat.not_lt_zero _)
      | succ f =>
          have harg : dumpChars (.str s) ++ rest
              = '"' :: (escList s.toList ++ '"' :: rest) := by
            simp [dumpChars, strChars]
          rw [harg]
          show (match readStr [] (escList s.toList ++ '"' :: rest) with
                | some (s', r') => some (JVal.str s', r')
                | none => none) = some (.str s, rest)
          rw [readStr_strBody]
  | .arr [], fuel, rest, hf, _ => by
      cases fuel with
      | zero => exact absurd hf (Nat.not_lt_zero _)
      | succ f => rfl
  | .arr (v :: vs), fuel, rest, hf, _ => by
      cases fuel with
      | zero => exact absurd hf (Nat.not_lt_zero _)
      | succ f =>
          obtain ⟨c, t, hd, hb, hrb, _⟩ := dumpChars_head v
          obtain ⟨y, hy⟩ := dumpItems_front v vs
          have hfi : (dumpItems (v :: vs)).length + 1 < f := by
            simp only [dumpChars, List.length_cons, List.length_append,
              List.length_singleton] at hf
            omega
          have hshape : dumpItems (v :: vs) ++ ']' :: rest
              = c :: (t ++ (y ++ ']' :: rest)) := by
            rw [hy, hd]
            simp
          have harg : dumpChars (.arr (v :: vs)) ++ rest
              = '[' :: (dumpItems (v :: vs) ++ ']' :: rest) := by
            simp [dumpChars]
          rw [harg, hshape, parseVal_openArrCons f c _ hb hrb, ← hshape,
            rt_items v vs f rest hfi]
  | .obj [], fuel, rest, hf, _ => by
      cases fuel with
      | zero => exact absurd hf (Nat.not_lt_zero _)
      | succ f => rfl
  | .obj ((k, v) :: ms), fuel, rest, hf, _ => by
      cases fuel with
      | zero => exact absurd hf (Nat.not_lt_zero _)
      | succ f =>
          obtain ⟨y, hy⟩ := dumpFields_front k v ms
          have hfi : (dumpFields ((k, v) :: ms)).length + 1 < f := by
            simp only [dumpChars, List.length_cons, List.length_append,
              List.length_singleton] at hf
            omega
          have hshape : dumpFields ((k, v) :: ms) ++ '\x7d' :: rest
              = '"' :: (y ++ '\x7d' :: rest) := by
            rw [hy]
            simp
          have harg : dumpChars (.obj ((k, v) :: ms)) ++ rest
              = '\x7b' :: (dumpFields ((k, v) :: ms) ++ '\x7d' :: rest) := by
            simp [dumpChars]
          rw [harg, hshape, parseVal_openObjCons f '"' _ (by decide) (by decide),
            ← hshape, rt_fields (k, v) ms f rest hfi]

theorem rt_items : ∀ (v : JVal) (vs : List JVal) (fuel : Nat) (rest : List Char),
    (dumpItems (v :: vs)).length + 1 < fuel →
    parseItems fuel (dumpItems (v :: vs) ++ ']' :: rest) = some (v :: vs, rest)
  | v, [], fuel, rest, hf => by
      cases fuel with
      | zero => exact absurd hf (Nat.not_lt_zero _)
      | succ f =>
          have hfe : (dumpChars v).length < f := by
            simp only [dumpItems] at hf
            omega
          have hv := rt_val v f (']' :: rest) hfe (noDigitHead_cons (by decide) _)
          simp only [parseItems]
          rw [show dumpItems [v] ++ ']' :: rest = dumpChars v ++ ']' :: rest from rfl, hv]
          rfl
  | v, w :: ws, fuel, rest, hf => by
      cases fuel with
      | zero => exact absurd hf (Nat.not_lt_zero _)
      | succ f =>
          have hlen : (dumpItems (v :: w :: ws)).length
              = (dumpChars v).length + 2 + (dumpItems (w :: ws)).length := by
            simp [dumpItems]
            omega
          have hfe : (dumpChars v).length < f := by omega
          have hfi : (dumpItems (w :: ws)).length + 1 < f := by omega
          have hv := rt_val v f (',' :: ' ' :: (dumpItems (w :: ws) ++ ']' :: rest))
            hfe (noDigitHead_cons (by decide) _)
          have hi := rt_items w ws f rest hfi
          have hsplit : dumpItems (v :: w :: ws) ++ ']' :: rest
              = dumpChars v ++ (',' :: ' ' :: (dumpItems (w :: ws) ++ ']' :: rest)) := by
            simp [dumpItems]
          have hskip : skipBlank (' ' :: (dumpItems (w :: ws) ++ ']' :: rest))
              = dumpItems (w :: ws) ++ ']' :: rest := by
            rw [show skipBlank (' ' :: (dumpItems (w :: ws) ++ ']' :: rest))
                  = skipBlank (dumpItems (w :: ws) ++ ']' :: rest) from by
                simp [skipBlank, isBlankCh]]
            exact skipBlank_dumpItems w ws _
          simp only [parseItems]
          rw [hsplit, hv]
          show (match skipBlank (',' :: ' ' :: (dumpItems (w :: ws) ++ ']' :: rest)) with
                | ',' :: r' =>
                    (match parseItems f (skipBlank r') with
                     | some (l, r'') => some (v :: l, r'')
                     | none => none)
                | ']' :: r' => some ([v], r')
                | _ => none) = some (v :: w :: ws, rest)
          rw [show skipBlank (',' :: ' ' :: (dumpItems (w :: ws) ++ ']' :: rest))
                = ',' :: ' ' :: (dumpItems (w :: ws) ++ ']' :: rest) from by
              simp [skipBlank, isBlankCh]]
          show (match parseItems f (skipBlank (' ' :: (dumpItems (w :: ws) ++ ']' :: rest))) with
                | some (l, r'') => some (v :: l, r'')
                | none => none) = some (v :: w :: ws, rest)
          rw [hskip, hi]

theorem rt_fields :
    ∀ (kv : String × JVal) (ms : List (String × JVal)) (fuel : Nat) (rest : List Char),
      (dumpFields (kv :: ms)).length + 1 < fuel →
      parseFields fuel (dumpFields (kv :: ms) ++ '\x7d' :: rest) = some (kv :: ms, rest)
  | (k, v), [], fuel, rest, hf => by
      cases fuel with
      | zero => exact absurd hf (Nat.not_lt_zero _)
      | succ f =>
          have hlen : (dumpFields [(k, v)]).length
              = (strChars k).length + 2 + (dumpChars v).length := by
            simp [dumpFields]
            omega
          have hfe : (dumpChars v).length < f := by
            simp only [strChars, List.length_cons, List.length_append] at hlen
            omega
          have hv := rt_val v f ('\x7d' :: rest) hfe (noDigitHead_cons (by decide) _)
          have harg : dumpFields [(k, v)] ++ '\x7d' :: rest
              = '"' :: (escList k.toList
                  ++ '"' :: (':' :: (' ' :: (dumpChars v ++ '\x7d' :: rest)))) := by
            simp [dumpFields, strChars]
          simp only [parseFields]
          rw [harg]
          rw [show skipBlank ('"' :: (escList k.toList
                ++ '"' :: (':' :: (' ' :: (dumpChars v ++ '\x7d' :: rest)))))
              = '"' :: (escList k.toList
                ++ '"' :: (':' :: (' ' :: (dumpChars v ++ '\x7d' :: rest)))) from by
            simp [skipBlank, isBlankCh]]
          show (match readStr [] (escList k.toList
                  ++ '"' :: (':' :: (' ' :: (dumpChars v ++ '\x7d' :: rest)))) with
                | none => none
                | some (key, r1) =>
                    match skipBlank r1 with
                    | ':' :: r2 =>
                        (match parseVal f (skipBlank r2) with
                         | none => none
                         | some (w, r3) =>
                             match skipBlank r3 with
                             | ',' :: r4 =>
                                 (match parseFields f (skipBlank r4) with
                                  | some (kvs, r5) => some ((key, w) :: kvs, r5)
                                  | none => none)
                             | '\x7d' :: r4 => some ([(key, w)], r4)
                             | _ => none)
                    | _ => none)
            = some ([(k, v)], rest)
          rw [readStr_strBody]
          show (match parseVal f (skipBlank (' ' :: (dumpChars v ++ '\x7d' :: rest))) with
                | none => none
                | some (w, r3) =>
                    match skipBlank r3 with
                    | ',' :: r4 =>
                        (match parseFields f (skipBlank r4) with
                         | some (kvs, r5) => some ((k, w) :: kvs, r5)
                         | none => none)
                    | '\x7d' :: r4 => some ([(k, w)], r4)
                    | _ => none)
            = some ([(k, v)], rest)
          rw [show skipBlank (' ' :: (dumpChars v ++ '\x7d' :: rest))
                = skipBlank (dumpChars v ++ '\x7d' :: rest) from by
              simp [skipBlank, isBlankCh]]
          rw [skipBlank_dump, hv]
          rfl
  | (k, v), m :: ms, fuel, rest, hf => by
      cases fuel with
      | zero => exact absurd hf (Nat.not_lt_zero _)
      | succ f =>
          have hlen : (dumpFields ((k, v) :: m :: ms)).length
              = (strChars k).length + 2 + (dumpChars v).length + 2
                + (dumpFields (m :: ms)).length := by
            simp [dumpFields]
            omega
          have hfe : (dumpChars v).length < f := by
            simp only [strChars, List.length_cons, List.length_append] at hlen
            omega
          have hfi : (dumpFields (m :: ms)).length + 1 < f := by
            simp only [strChars, List.length_cons, List.length_append] at hlen
            omega
          have hv := rt_val v f
            (',' :: ' ' :: (dumpFields (m :: ms) ++ '\x7d' :: rest)) hfe
            (noDigitHead_cons (by decide) _)
          have hi := rt_fields m ms f rest hfi
          have harg : dumpFields ((k, v) :: m :: ms) ++ '\x7d' :: rest
              = '"' :: (escList k.toList
                  ++ '"' :: (':' :: (' ' :: (dumpChars v
                      ++ ',' :: ' ' :: (dumpFields (m :: ms) ++ '\x7d' :: rest))))) := by
            simp [dumpFields, strChars]
          simp only [parseFields]
          rw [harg]
          rw [show skipBlank ('"' :: (escList k.toList
                ++ '"' :: (':' :: (' ' :: (dumpChars v
                    ++ ',' :: ' ' :: (dumpFields (m :: ms) ++ '\x7d' :: rest))))))
              = '"' :: (escList k.toList
                ++ '"' :: (':' :: (' ' :: (dumpChars v
                    ++ ',' :: ' ' :: (dumpFields (m :: ms) ++ '\x7d' :: rest))))) from by
            simp [skipBlank, isBlankCh]]
          show (match readStr [] (escList k.toList
                  ++ '"' :: (':' :: (' ' :: (dumpChars v
                      ++ ',' :: ' ' :: (dumpFields (m :: ms) ++ '\x7d' :: rest))))) with
                | none => none
                | some (key, r1) =>
                    match skipBlank r1 with
                    | ':' :: r2 =>
                        (match parseVal f (skipBlank r2) with
                         | none => none
                         | some (w, r3) =>
                             match skipBlank r3 with
                             | ',' :: r4 =>
                                 (match parseFields f (skipBlank r4) with
                                  | some (kvs, r5) => some ((key, w) :: kvs, r5)
                                  | none => none)
                             | '\x7d' :: r4 => some ([(key, w)], r4)
                             | _ => none)
                    | _ => none)
            = some ((k, v) :: m :: ms, rest)
          rw [readStr_strBody]
          show (match parseVal f (skipBlank (' ' :: (dumpChars v
                    ++ ',' :: ' ' :: (dumpFields (m :: ms) ++ '\x7d' :: rest)))) with
                | none => none
                | some (w, r3) =>
                    match skipBlank r3 with
                    | ',' :: r4 =>
                        (match parseFields f (skipBlank r4) with
                         | some (kvs, r5) => some ((k, w) :: kvs, r5)
                         | none => none)
                    | '\x7d' :: r4 => some ([(k, w)], r4)
                    | _ => none)
            = some ((k, v) :: m :: ms, rest)
          rw [show skipBlank (' ' :: (dumpChars v
                ++ ',' :: ' ' :: (dumpFields (m :: ms) ++ '\x7d' :: rest)))
              = skipBlank (dumpChars v
                ++ ',' :: ' ' :: (dumpFields (m :: ms) ++ '\x7d' :: rest)) from by
            simp [skipBlank, isBlankCh]]
          rw [skipBlank_dump, hv]
          show (match parseFields f (skipBlank (' '
                    :: (dumpFields (m :: ms) ++ '\x7d' :: rest))) with
                | some (kvs, r5) => some ((k, v) :: kvs, r5)
                | none => none)
            = some ((k, v) :: m :: ms, rest)
          rw [show skipBlank (' ' :: (dumpFields (m :: ms) ++ '\x7d' :: rest))
              = skipBlank (dumpFields (m :: ms) ++ '\x7d' :: rest) from by
            simp [skipBlank, isBlankCh]]
          rw [skipBlank_dumpFields, hi]

end

/-- Parsing a rendered value back recovers it exactly, for every value of
the model. -/
theorem loads_dumps (v : JVal) : loads (dumps v) = some v := by
  unfold loads dumps
  have hlist : (String.mk (dumpChars v)).toList = dumpChars v := rfl
  rw [hlist]
  have hv := rt_val v ((dumpChars v).length + 1) [] (by omega) rfl
  rw [List.append_nil] at hv
  rw [hv]
  rfl

/-- C7: serializing a targeting-style mapping with `json.dumps` and decoding
the string back with `json.loads` reproduces the original structure.  The
`nodupKeys` hypothesis restricts the statement to values that arise from
Python dicts (whose keys are distinct) — exactly the domain on which the
model's association-list reading of objects coincides with Python's
dict construction. -/
theorem C7_json_roundtrip (kvs : List (String × JVal))
    (h : nodupKeys (.obj kvs) = true) :
    loads (dumps (.obj kvs)) = some (.obj kvs) :=
  loads_dumps (.obj kvs)

theorem C7_witness :
    nodupKeys (.obj defaultTargeting) = true
    ∧ loads (dumps (.obj defaultTargeting)) = some (.obj defaultTargeting) :=
  ⟨by decide, C7_json_roundtrip defaultTargeting (by decide)⟩

/-! ### Claim C8 -/

/-- C8 (modelled from the spec, the auth module being outside the provided
sources): in bypass mode `get_access_token` returns the fixed sentinel
token whatever `force_refresh` is, so two calls with different
`force_refresh` arguments agree. -/
theorem C8_bypass_token_constant (acquire : Option String) (st : AuthState)
    (h : st.bypass = true) (f1 f2 : Bool) :
    get_access_token acquire st f1 = some bypassSentinel
    ∧ get_access_token acquire st f1 = get_access_token acquire st f2 := by
  simp [get_access_token, h]

theorem C8_witness :
    (AuthState.mk true none).bypass = true
    ∧ get_access_token none (AuthState.mk true none) false = some bypassSentinel
    ∧ get_access_token none (AuthState.mk true none) false
        = get_access_token none (AuthState.mk true none) true :=
  ⟨rfl, (C8_bypass_token_constant none (AuthState.mk true none) rfl false true).1,
    (C8_bypass_token_constant none (AuthState.mk true none) rfl false true).2⟩

end MetaAdsMCP
